import Mathlib

/-!
Shallow embedding of the test-orchestration tool in src/dt.py.

Conventions of the embedding:
* Python strings and string lists become String and List String.
* Python s.split(',') is embedded as a character-level split (splitComma)
  on s.data, which agrees with Python's split for the single-character
  separator used by the source.
* Python's set() of adapter-type strings is embedded as a duplicate-free
  List String.  Only membership of that set is specified by the source;
  the list order stands for CPython's set iteration order, which is
  hash-dependent and not fixed across interpreter runs.
* The argparse surface of parse_args (dt.py lines 37-159) is embedded as a
  fold over a list of Flag events, one constructor per add_argument call,
  with the argparse action semantics (append_const appends, store_true /
  store_false set, store keeps the last value, append appends).
* The builder class hierarchy (dt.py lines 162-267) becomes one function
  per method; the single mutation performed during building
  (parsed.multi = False under --pdb, line 198) is made explicit by
  pytest_resolve, and builders return the updated option record.
* subprocess execution is an oracle (exec_ : List String -> Int) giving the
  child's exit status; main's try/except loop (lines 280-287) becomes
  dispatch, returning the argument vectors actually run plus the process
  exit status (sys.exit(1) on the first CalledProcessError, 0 otherwise).
-/

/-- Character-level embedding of Python str.split(',') (dt.py line 27). -/
def splitComma : List Char → List (List Char)
  | [] => [[]]
  | c :: rest =>
    if c = ',' then [] :: splitComma rest
    else
      match splitComma rest with
      | [] => [[c]]
      | h :: t => (c :: h) :: t

/-- The comma-separated tokens of a string, as Python s.split(',') yields them. -/
def pyTokens (s : String) : List String :=
  (splitComma s.data).map fun cs => String.mk cs

/-- Embedding of Python str.join over a list (used for ' or '.join, dt.py line 239). -/
def pyJoin (sep : String) : List String → String
  | [] => ""
  | [x] => x
  | x :: y :: xs => x ++ sep ++ pyJoin sep (y :: xs)

/-- The module-level _SHORTHAND table of dt.py lines 7-22, in source order. -/
def _SHORTHAND : List (String × String) :=
  [("p", "postgres"), ("pg", "postgres"), ("postgres", "postgres"),
   ("pr", "presto"), ("presto", "presto"),
   ("r", "redshift"), ("rs", "redshift"), ("redshift", "redshift"),
   ("b", "bigquery"), ("bq", "bigquery"), ("bigquery", "bigquery"),
   ("s", "snowflake"), ("sf", "snowflake"), ("snowflake", "snowflake")]

/-- Dictionary lookup _SHORTHAND[t] (dt.py line 29): some on hit, none on KeyError. -/
def shorthandLookup (t : String) : Option String :=
  (_SHORTHAND.find? fun kv => kv.1 == t).map fun kv => kv.2

/-- The typed failures of the program: the ValueError of type_convert
(dt.py lines 31-33), naming the offending token.  projectLayoutNotFound is
used only by the spec-side comparison model for the style-check builder. -/
inductive DtError
  | invalidAdapterType (tok : String)
  | projectLayoutNotFound
  deriving DecidableEq

/-- Python set.add (dt.py line 29): membership-based insertion; the list
order is one admissible iteration order of the resulting set. -/
def setAdd (l : List String) (x : String) : List String :=
  if x ∈ l then l else l ++ [x]

/-- The loop body of type_convert (dt.py lines 27-33): fold the tokens,
adding the looked-up canonical name, failing on the first unmapped token. -/
def convert_tokens (acc : List String) : List String → Except DtError (List String)
  | [] => .ok acc
  | t :: ts =>
    match shorthandLookup t with
    | some v => convert_tokens (setAdd acc v) ts
    | none => .error (.invalidAdapterType t)

/-- type_convert (dt.py lines 25-34): normalize a comma-separated shorthand
string to the set of canonical adapter-type names. -/
def type_convert (types : String) : Except DtError (List String) :=
  convert_tokens [] (pyTokens types)

/-- The three runnable command kinds, i.e. the three builder classes that
parse_args can append to parsed.commands (dt.py lines 41-58). -/
inductive CommandKind
  | flake8
  | unit
  | integration
  deriving DecidableEq

/-- One event of the argparse surface of parse_args (dt.py lines 41-152):
one constructor per add_argument call that can occur on the command line. -/
inductive CliFlag
  | flake8
  | unit
  | integration
  | pythonVersion (v : String)
  | types (s : String)
  | contOnFail
  | removeLogs
  | singleThreaded
  | coverage
  | pdb
  | k (s : String)
  | noMulti
  | dockerArgs (s : String)
  | toxArgs (s : String)
  | pylintArgs (s : String)
  | testArgs (s : String)
  | unitArgs (s : String)
  | flake8Args (s : String)
  | extra (s : String)
  deriving DecidableEq

/-- The argparse namespace right after parser.parse_args(argv) (dt.py line
154), before the types field is overwritten: types is still the raw
Option String of the last types-flag occurrence. -/
structure RawParsed where
  commands : Option (List CommandKind) := none
  python_version : String := "36"
  types : Option String := none
  stop : Bool := true
  remove_logs : Bool := false
  single_threaded : Bool := false
  coverage : Bool := false
  pdb : Bool := false
  k : List String := []
  multi : Bool := true
  docker_args : List String := []
  tox_args : List String := []
  pylint_args : List String := []
  test_args : List String := []
  unit_args : List String := []
  flake8_args : List String := []
  extra : List String := []
  deriving DecidableEq

/-- The namespace with all argparse defaults (dt.py lines 41-152). -/
def initRaw : RawParsed := {}

/-- argparse action semantics for one flag occurrence: append_const for the
command flags, store for -v and -t, store_true/store_false for the toggles,
append for the repeatable value flags and the positional extras. -/
def applyFlag (p : RawParsed) : CliFlag → RawParsed
  | .flake8 => { p with commands := some (p.commands.getD [] ++ [.flake8]) }
  | .unit => { p with commands := some (p.commands.getD [] ++ [.unit]) }
  | .integration => { p with commands := some (p.commands.getD [] ++ [.integration]) }
  | .pythonVersion v => { p with python_version := v }
  | .types s => { p with types := some s }
  | .contOnFail => { p with stop := false }
  | .removeLogs => { p with remove_logs := true }
  | .singleThreaded => { p with single_threaded := true }
  | .coverage => { p with coverage := true }
  | .pdb => { p with pdb := true }
  | .k s => { p with k := p.k ++ [s] }
  | .noMulti => { p with multi := false }
  | .dockerArgs s => { p with docker_args := p.docker_args ++ [s] }
  | .toxArgs s => { p with tox_args := p.tox_args ++ [s] }
  | .pylintArgs s => { p with pylint_args := p.pylint_args ++ [s] }
  | .testArgs s => { p with test_args := p.test_args ++ [s] }
  | .unitArgs s => { p with unit_args := p.unit_args ++ [s] }
  | .flake8Args s => { p with flake8_args := p.flake8_args ++ [s] }
  | .extra s => { p with extra := p.extra ++ [s] }

/-- parser.parse_args(argv): fold the flag events over the defaults. -/
def rawParse (argv : List CliFlag) : RawParsed :=
  argv.foldl applyFlag initRaw

/-- The resolved option record handed to the builders: identical to
RawParsed except that types now holds the adapter-type set (dt.py lines
155-158 overwrite parsed.types with a set). -/
structure Parsed where
  commands : Option (List CommandKind)
  python_version : String
  types : List String
  stop : Bool
  remove_logs : Bool
  single_threaded : Bool
  coverage : Bool
  pdb : Bool
  k : List String
  multi : Bool
  docker_args : List String
  tox_args : List String
  pylint_args : List String
  test_args : List String
  unit_args : List String
  flake8_args : List String
  extra : List String
  deriving DecidableEq

/-- Overwrite the types field with the resolved adapter-type set, keeping
every other parsed field (dt.py lines 155-158). -/
def RawParsed.resolve (r : RawParsed) (ts : List String) : Parsed :=
  { commands := r.commands, python_version := r.python_version, types := ts,
    stop := r.stop, remove_logs := r.remove_logs,
    single_threaded := r.single_threaded, coverage := r.coverage,
    pdb := r.pdb, k := r.k, multi := r.multi,
    docker_args := r.docker_args, tox_args := r.tox_args,
    pylint_args := r.pylint_args, test_args := r.test_args,
    unit_args := r.unit_args, flake8_args := r.flake8_args,
    extra := r.extra }

/-- The default adapter-type set of dt.py line 158, in source literal order. -/
def DEFAULT_TYPES : List String := ["postgres", "redshift", "bigquery", "snowflake"]

/-- parse_args (dt.py lines 37-159).  An empty argv is rewritten to
['-it', 'pg'] (line 39), i.e. the integration flag followed by -t 'pg'.
After parsing, a truthy (present and non-empty) types string is normalized
by type_convert, anything else gets the default four-type set. -/
def parse_args (argv : List CliFlag) : Except DtError Parsed :=
  let argv1 := if argv.isEmpty then [CliFlag.integration, CliFlag.types "pg"] else argv
  let r := rawParse argv1
  match r.types with
  | some s => if s = "" then .ok (r.resolve DEFAULT_TYPES) else (type_convert s).map r.resolve
  | none => .ok (r.resolve DEFAULT_TYPES)

/-- tox_env of PytestBuilder.add_tox_args (dt.py line 187). -/
def tox_env (p : Parsed) : String :=
  "explicit-py" ++ p.python_version

/-- DockerBuilder.add_docker_args (dt.py lines 220-225): the container
prefix, the single-threaded environment injection, and the container-layer
pass-through arguments. -/
def add_docker_args (p : Parsed) : List String :=
  ["docker-compose", "run", "--rm"]
    ++ (if p.single_threaded then ["-e", "DBT_TEST_SINGLE_THREADED=y"] else [])
    ++ (if p.docker_args ≠ [] then p.docker_args else [])

/-- PytestBuilder.add_tox_args (dt.py lines 186-191): matrix-runner
invocation, environment selector, matrix pass-throughs, separator. -/
def add_tox_args (p : Parsed) : List String :=
  ["test", "tox", "-e", tox_env p]
    ++ (if p.tox_args ≠ [] then p.tox_args else [])
    ++ ["--"]

/-- The one mutation performed while building: parsed.multi = False when
the debugger toggle is set (dt.py lines 196-198). -/
def pytest_resolve (p : Parsed) : Parsed :=
  if p.pdb then { p with multi := false } else p

/-- The framework-layer tokens of PytestBuilder.add_pytest_args (dt.py
lines 193-206), up to but excluding the leaf's explicit-target step.  The
final multiprocessing check (line 205) reads parsed.multi after the pdb
override of line 198, hence through pytest_resolve. -/
def pytest_flags (p : Parsed) : List String :=
  ["-s"]
    ++ (if p.pdb then ["--pdb", "--pdbcls=IPython.terminal.debugger:Pdb"] else [])
    ++ (if p.stop then ["-x"] else [])
    ++ (if p.coverage then ["--cov", "dbt", "--cov-branch", "--cov-report", "term"] else [])
    ++ (p.k.flatMap fun arg => ["-k", arg])
    ++ (if (pytest_resolve p).multi then ["-n", "auto"] else [])

/-- The marker-selection value of IntegrationBuilder.add_extra_pytest_args
(dt.py lines 238-239): ' or '.join of profile_<t> over the types set, in
the set's iteration order (here: the order of the list modelling it). -/
def profile_marker (types : List String) : String :=
  pyJoin " or " (types.map fun t => "profile_" ++ t)

/-- IntegrationBuilder.add_extra_pytest_args (dt.py lines 235-242): the
marker-selection pair when the types set is truthy (non-empty), then the
integration pass-through list and the shared extra list. -/
def integration_extra_args (p : Parsed) : List String :=
  (if p.types ≠ [] then ["-m", profile_marker p.types] else [])
    ++ p.test_args ++ p.extra

/-- The boolean returned by IntegrationBuilder.add_extra_pytest_args (dt.py
lines 240-243): whether the explicit-target step appended anything, i.e.
len(args) - start > 0.  The marker pair is appended before start is taken,
so only test_args and extra count. -/
def integration_contributed (p : Parsed) : Bool :=
  p.test_args ++ p.extra ≠ []

/-- UnitBuilder.add_extra_pytest_args, explicit targets (dt.py lines 250-252). -/
def unit_extra_args (p : Parsed) : List String :=
  p.unit_args ++ p.extra

/-- The boolean returned by UnitBuilder.add_extra_pytest_args (dt.py line 253). -/
def unit_contributed (p : Parsed) : Bool :=
  p.unit_args ++ p.extra ≠ []

/-- IntegrationBuilder(parsed): the full argument vector built by
__init__ via DockerBuilder.add_test_environment_args (docker layer, tox
layer, pytest layer, leaf extras, DEFAUlTS = ['test/integration'] when the
leaf contributed no explicit target), together with the option record
after the builder's parsed.multi mutation. -/
def integration_build (p : Parsed) : List String × Parsed :=
  (add_docker_args p ++ add_tox_args p ++ pytest_flags p
     ++ integration_extra_args p
     ++ (if integration_contributed p then [] else ["test/integration"]),
   pytest_resolve p)

/-- UnitBuilder(parsed): as integration_build, with the unit leaf's
explicit targets, no marker pair, and DEFAUlTS = ['test/unit']. -/
def unit_build (p : Parsed) : List String × Parsed :=
  (add_docker_args p ++ add_tox_args p ++ pytest_flags p
     ++ unit_extra_args p
     ++ (if unit_contributed p then [] else ["test/unit"]),
   pytest_resolve p)

/-- The project-layout facts probed by Flake8Builder (dt.py lines 262-264):
whether os.path.exists finds dbt/main.py resp. core/dbt/main.py. -/
structure FS where
  dbt_main : Bool
  core_dbt_main : Bool
  deriving DecidableEq

/-- Flake8Builder.add_test_environment_args (dt.py lines 256-267): fixed
rule selection and exclusion, style pass-throughs, and — only when no
pass-through was supplied — the layout-probed default targets.  When
neither layout file exists, the source appends nothing and falls through:
there is no error path in this method. -/
def flake8_build (fs : FS) (p : Parsed) : List String :=
  ["flake8", "--select", "E,W,F", "--ignore", "W504"]
    ++ p.flake8_args
    ++ (if p.flake8_args = [] then
          (if fs.dbt_main then ["dbt"]
           else if fs.core_dbt_main then
             ["core/dbt"]
               ++ (["postgres", "redshift", "bigquery", "snowflake"].map
                     fun adapter => "plugins/" ++ adapter ++ "/dbt")
           else [])
        else [])

/-- cls(parsed) for one selected command (dt.py line 282): building the
vector and, for the pytest-based builders, mutating parsed.multi. -/
def build_command (fs : FS) (p : Parsed) : CommandKind → List String × Parsed
  | .flake8 => (flake8_build fs p, p)
  | .unit => unit_build p
  | .integration => integration_build p

/-- The argument vectors main would build for a selected command list if
every child process succeeded, threading the option record through the
builders exactly as the dispatch loop does. -/
def plan (fs : FS) : Parsed → List CommandKind → List (List String)
  | _, [] => []
  | p, c :: cs =>
    let bp := build_command fs p c
    bp.1 :: plan fs bp.2 cs

/-- main's dispatch loop (dt.py lines 280-287): instantiate each selected
builder in order and run it; result.check_returncode() raises
CalledProcessError on a non-zero exit status, which the surrounding
try/except turns into sys.exit(1); completing the loop reports success and
exits 0.  exec_ is the child-process oracle; the first component collects
the argument vectors actually executed. -/
def dispatch (exec_ : List String → Int) (fs : FS) :
    Parsed → List CommandKind → List (List String) × Nat
  | _, [] => ([], 0)
  | p, c :: cs =>
    let bp := build_command fs p c
    if exec_ bp.1 = 0 then
      let r := dispatch exec_ fs bp.2 cs
      (bp.1 :: r.1, r.2)
    else ([bp.1], 1)

/-- The position of the first executed vector whose child process exits
non-zero, if any: the claim-side notion the dispatcher is measured against. -/
def firstFail (exec_ : List String → Int) : List (List String) → Option Nat
  | [] => none
  | a :: as => if exec_ a = 0 then (firstFail exec_ as).map (· + 1) else some 0

/-- Modelled from the spec (section 4.3): the style-check builder's
behavior as the spec describes it, failing with ProjectLayoutNotFound when
neither project layout is detected and no pass-through argument was
supplied.  Defined only to compare the spec's words with flake8_build,
which is the source's actual behavior. -/
def flake8_build_specModel (fs : FS) (p : Parsed) : Except DtError (List String) :=
  if p.flake8_args = [] ∧ fs.dbt_main = false ∧ fs.core_dbt_main = false then
    .error .projectLayoutNotFound
  else .ok (flake8_build fs p)

/-! Lemmas about the character-level split and the normalizer. -/

theorem splitComma_ne_nil (l : List Char) : splitComma l ≠ [] := by
  induction l with
  | nil => simp [splitComma]
  | cons c rest ih =>
    simp only [splitComma]
    split
    · simp
    · split
      · simp
      · simp

theorem splitComma_no_comma (l : List Char) (h : ',' ∉ l) : splitComma l = [l] := by
  induction l with
  | nil => rfl
  | cons c rest ih =>
    simp only [splitComma]
    have hc : ¬ c = ',' := fun he => h (he ▸ List.mem_cons_self c rest)
    rw [if_neg hc, ih (fun hm => h (List.mem_cons_of_mem c hm))]

theorem splitComma_comma_free (l : List Char) (cs : List Char)
    (h : cs ∈ splitComma l) : ',' ∉ cs := by
  induction l generalizing cs with
  | nil =>
    simp [splitComma] at h
    simp [h]
  | cons c rest ih =>
    simp only [splitComma] at h
    by_cases hc : c = ','
    · rw [if_pos hc] at h
      rcases List.mem_cons.mp h with h1 | h1
      · simp [h1]
      · exact ih cs h1
    · rw [if_neg hc] at h
      rcases hsp : splitComma rest with _ | ⟨h0, t0⟩
      · exact absurd hsp (splitComma_ne_nil rest)
      · rw [hsp] at h
        rcases List.mem_cons.mp h with h1 | h1
        · subst h1
          intro hm
          rcases List.mem_cons.mp hm with h2 | h2
          · exact hc h2.symm
          · exact ih h0 (hsp ▸ List.mem_cons_self h0 t0) h2
        · exact ih cs (hsp ▸ List.mem_cons_of_mem h0 h1)

theorem stringMk_data (s : String) : String.mk s.data = s := by
  cases s
  rfl

theorem pyTokens_ne_nil (s : String) : pyTokens s ≠ [] := by
  unfold pyTokens
  intro h
  exact splitComma_ne_nil s.data (List.map_eq_nil_iff.mp h)

theorem pyTokens_comma_free (s : String) (t : String) (h : t ∈ pyTokens s) :
    ',' ∉ t.data := by
  unfold pyTokens at h
  obtain ⟨cs, hcs, rfl⟩ := List.mem_map.mp h
  exact splitComma_comma_free s.data cs hcs

theorem pyTokens_single (t : String) (h : ',' ∉ t.data) : pyTokens t = [t] := by
  unfold pyTokens
  rw [splitComma_no_comma t.data h]
  simp [stringMk_data]

theorem mem_setAdd {x v : String} {l : List String} :
    x ∈ setAdd l v ↔ x ∈ l ∨ x = v := by
  unfold setAdd
  split
  · rename_i hv
    constructor
    · exact Or.inl
    · rintro (hx | rfl)
      · exact hx
      · exact hv
  · simp

theorem nodup_setAdd {v : String} {l : List String} (h : l.Nodup) :
    (setAdd l v).Nodup := by
  unfold setAdd
  split
  · exact h
  · rename_i hv
    simp [List.nodup_append, h, hv]

theorem convert_tokens_sub {ts : List String} {acc l : List String}
    (h : convert_tokens acc ts = .ok l) : ∀ x ∈ acc, x ∈ l := by
  induction ts generalizing acc with
  | nil =>
    simp only [convert_tokens] at h
    cases h
    exact fun x hx => hx
  | cons t ts ih =>
    simp only [convert_tokens] at h
    rcases hl : shorthandLookup t with _ | v
    · rw [hl] at h
      cases h
    · rw [hl] at h
      exact fun x hx => ih h x (mem_setAdd.mpr (Or.inl hx))

theorem convert_tokens_mem {ts : List String} {acc l : List String}
    (h : convert_tokens acc ts = .ok l) :
    ∀ x, x ∈ l ↔ x ∈ acc ∨ ∃ t ∈ ts, shorthandLookup t = some x := by
  induction ts generalizing acc with
  | nil =>
    simp only [convert_tokens] at h
    cases h
    simp
  | cons t ts ih =>
    simp only [convert_tokens] at h
    rcases hl : shorthandLookup t with _ | v
    · rw [hl] at h
      cases h
    · rw [hl] at h
      intro x
      rw [ih h x, mem_setAdd]
      constructor
      · rintro ((hx | rfl) | ⟨u, hu, hul⟩)
        · exact Or.inl hx
        · exact Or.inr ⟨t, List.mem_cons_self t ts, hl⟩
        · exact Or.inr ⟨u, List.mem_cons_of_mem t hu, hul⟩
      · rintro (hx | ⟨u, hu, hul⟩)
        · exact Or.inl (Or.inl hx)
        · rcases List.mem_cons.mp hu with rfl | hu2
          · rw [hl] at hul
            exact Or.inl (Or.inr (Option.some_inj.mp hul).symm)
          · exact Or.inr ⟨u, hu2, hul⟩

theorem convert_tokens_nodup {ts : List String} {acc l : List String}
    (hacc : acc.Nodup) (h : convert_tokens acc ts = .ok l) : l.Nodup := by
  induction ts generalizing acc with
  | nil =>
    simp only [convert_tokens] at h
    cases h
    exact hacc
  | cons t ts ih =>
    simp only [convert_tokens] at h
    rcases hl : shorthandLookup t with _ | v
    · rw [hl] at h
      cases h
    · rw [hl] at h
      exact ih (nodup_setAdd hacc) h

theorem convert_tokens_err {ts : List String}
    (h : ∃ t ∈ ts, shorthandLookup t = none) (acc : List String) :
    ∃ u, convert_tokens acc ts = .error (.invalidAdapterType u)
      ∧ u ∈ ts ∧ shorthandLookup u = none := by
  induction ts generalizing acc with
  | nil => simp at h
  | cons t ts ih =>
    rcases hl : shorthandLookup t with _ | v
    · exact ⟨t, by simp [convert_tokens, hl], List.mem_cons_self t ts, hl⟩
    · have h2 : ∃ u ∈ ts, shorthandLookup u = none := by
        rcases h with ⟨u, hu, hul⟩
        rcases List.mem_cons.mp hu with rfl | hu2
        · rw [hl] at hul
          cases hul
        · exact ⟨u, hu2, hul⟩
      obtain ⟨u, hres, hu, hul⟩ := ih h2 (setAdd acc v)
      exact ⟨u, by simp [convert_tokens, hl, hres], List.mem_cons_of_mem t hu, hul⟩

theorem type_convert_nodup {s : String} {l : List String}
    (h : type_convert s = .ok l) : l.Nodup :=
  convert_tokens_nodup List.nodup_nil h

theorem type_convert_ne_nil {s : String} {l : List String}
    (h : type_convert s = .ok l) : l ≠ [] := by
  rcases hk : pyTokens s with _ | ⟨t, ts⟩
  · exact absurd hk (pyTokens_ne_nil s)
  · unfold type_convert at h
    rw [hk] at h
    simp only [convert_tokens] at h
    rcases hl : shorthandLookup t with _ | v
    · rw [hl] at h
      cases h
    · rw [hl] at h
      have hv : v ∈ l := convert_tokens_sub h v (by simp [setAdd])
      exact List.ne_nil_of_mem hv

theorem type_convert_single_ok {t v : String} (hc : ',' ∉ t.data)
    (hl : shorthandLookup t = some v) : type_convert t = .ok [v] := by
  unfold type_convert
  rw [pyTokens_single t hc]
  simp [convert_tokens, hl, setAdd]

theorem type_convert_single_err {t : String} (hc : ',' ∉ t.data)
    (hl : shorthandLookup t = none) :
    type_convert t = .error (.invalidAdapterType t) := by
  unfold type_convert
  rw [pyTokens_single t hc]
  simp [convert_tokens, hl]

theorem type_convert_mem {s : String} {l : List String}
    (h : type_convert s = .ok l) :
    ∀ x, x ∈ l ↔ ∃ t ∈ pyTokens s, type_convert t = .ok [x] := by
  intro x
  rw [convert_tokens_mem h x]
  simp only [List.not_mem_nil, false_or]
  constructor
  · rintro ⟨t, ht, htl⟩
    exact ⟨t, ht, type_convert_single_ok (pyTokens_comma_free s t ht) htl⟩
  · rintro ⟨t, ht, htc⟩
    refine ⟨t, ht, ?_⟩
    have hc := pyTokens_comma_free s t ht
    rcases hl : shorthandLookup t with _ | v
    · rw [type_convert_single_err hc hl] at htc
      cases htc
    · rw [type_convert_single_ok hc hl] at htc
      injection htc with h2
      injection h2 with h3 _
      rw [h3]

/-- C9: normalizing a comma-separated token string succeeds exactly on the
union of the per-token normalizations with duplicates collapsed (the result
is duplicate-free and its members are exactly the values the individual
tokens normalize to, e.g. "p,pg,postgres" yields {postgres}); every token
of the ShorthandTable normalizes alone to exactly its one mapped adapter
type; an unmapped token normalizes to an InvalidAdapterType error naming
it, and the presence of any unmapped token makes the whole call fail with
InvalidAdapterType instead of returning a partial set. -/
theorem type_convert_spec :
    (∀ s l, type_convert s = .ok l →
        l.Nodup ∧ ∀ x, x ∈ l ↔ ∃ t ∈ pyTokens s, type_convert t = .ok [x])
    ∧ (∀ kv ∈ _SHORTHAND, type_convert kv.1 = .ok [kv.2])
    ∧ (∀ t, ',' ∉ t.data → shorthandLookup t = none →
        type_convert t = .error (.invalidAdapterType t))
    ∧ (∀ s, (∃ t ∈ pyTokens s, shorthandLookup t = none) →
        ∃ u, type_convert s = .error (.invalidAdapterType u)
          ∧ u ∈ pyTokens s ∧ shorthandLookup u = none)
    ∧ type_convert "p,pg,postgres" = .ok ["postgres"] := by
  refine ⟨?_, ?_, ?_, ?_, rfl⟩
  · intro s l h
    exact ⟨type_convert_nodup h, type_convert_mem h⟩
  · intro kv hkv
    fin_cases hkv <;> rfl
  · intro t hc hl
    exact type_convert_single_err hc hl
  · intro s hex
    exact convert_tokens_err hex []

/-- Witness for type_convert_spec: the unmapped token "zz" makes the call
fail with InvalidAdapterType naming it. -/
theorem type_convert_spec_inst :
    type_convert "zz" = .error (.invalidAdapterType "zz") :=
  type_convert_spec.2.2.1 "zz" (by decide) rfl

/-- Length of the planned vector sequence equals the number of selected commands. -/
theorem plan_length (fs : FS) (p : Parsed) (cs : List CommandKind) :
    (plan fs p cs).length = cs.length := by
  induction cs generalizing p with
  | nil => rfl
  | cons c cs ih => simp [plan, ih]

/-- C1: the dispatcher builds and runs the selected commands in list order
and stops at the first child process exiting non-zero: the vectors
actually built and executed are exactly the planned vectors up to and
including the first failing one (so the builders of the remaining commands
are never instantiated and never run), the invocation exits with status 1
on such a failure, and with status 0 when every selected command exits
zero (in which case every planned vector ran). -/
theorem dispatch_fail_fast (exec_ : List String → Int) (fs : FS) (p : Parsed)
    (cs : List CommandKind) :
    (plan fs p cs).length = cs.length ∧
    dispatch exec_ fs p cs =
      match firstFail exec_ (plan fs p cs) with
      | none => (plan fs p cs, 0)
      | some i => ((plan fs p cs).take (i + 1), 1) := by
  refine ⟨plan_length fs p cs, ?_⟩
  induction cs generalizing p with
  | nil => rfl
  | cons c cs ih =>
    simp only [plan, dispatch, firstFail]
    by_cases h : exec_ (build_command fs p c).1 = 0
    · rw [if_pos h, if_pos h, ih (build_command fs p c).2]
      rcases hf : firstFail exec_ (plan fs (build_command fs p c).2 cs) with _ | i
      · simp
      · simp [List.take]
    · rw [if_neg h, if_neg h]
      simp [List.take]

/-- A resolved option record with every toggle at its argparse default and
every pass-through list empty; the adapter-type set is the four-type
default.  Used as a concrete input for witnesses and counterexamples. -/
def egBase : Parsed :=
  { commands := none, python_version := "36",
    types := ["postgres", "redshift", "bigquery", "snowflake"],
    stop := true, remove_logs := false, single_threaded := false,
    coverage := false, pdb := false, k := [], multi := true,
    docker_args := [], tox_args := [], pylint_args := [],
    test_args := [], unit_args := [], flake8_args := [], extra := [] }

/-- C7 counterexample: with no style-check pass-through arguments and
neither layout file present, Flake8Builder does not fail — it produces the
bare fixed flake8 vector with no target (the source has no
ProjectLayoutNotFound error path at all), diverging from the spec-side
model of the claimed behavior at the same input. -/
theorem flake8_no_layout_still_builds :
    flake8_build ⟨false, false⟩ egBase
        = ["flake8", "--select", "E,W,F", "--ignore", "W504"]
    ∧ flake8_build_specModel ⟨false, false⟩ egBase
        = .error .projectLayoutNotFound := ⟨rfl, rfl⟩

/-- C7 amended: when the style-check builder is given no pass-through
arguments and neither project layout is detected, it produces exactly the
fixed flake8 invocation prefix with no target path appended, instead of
failing. -/
theorem flake8_no_layout_bare_vector (fs : FS) (p : Parsed)
    (h : p.flake8_args = []) (h1 : fs.dbt_main = false)
    (h2 : fs.core_dbt_main = false) :
    flake8_build fs p = ["flake8", "--select", "E,W,F", "--ignore", "W504"] := by
  simp [flake8_build, h, h1, h2]

/-- Witness for flake8_no_layout_bare_vector at a concrete input. -/
theorem flake8_no_layout_bare_vector_inst :
    flake8_build ⟨false, false⟩ { egBase with coverage := true }
      = ["flake8", "--select", "E,W,F", "--ignore", "W504"] :=
  flake8_no_layout_bare_vector ⟨false, false⟩ { egBase with coverage := true }
    rfl rfl rfl

/-- C8 counterexample: a non-empty flag list with no command-selection
flag (here just -t pg) does not resolve to the integration/postgres
default — parsing succeeds but the command list stays None, so nothing is
selected to run. -/
theorem no_command_flags_no_default :
    (parse_args [CliFlag.types "pg"]).map Parsed.commands = .ok none
    ∧ (parse_args [CliFlag.types "pg"]).map Parsed.commands
        ≠ .ok (some [CommandKind.integration]) :=
  ⟨rfl, fun h => by
    have h0 : (parse_args [CliFlag.types "pg"]).map Parsed.commands
        = Except.ok (none : Option (List CommandKind)) := rfl
    have h2 := h0.symm.trans h
    injection h2 with h3
    exact Option.noConfusion h3⟩

/-- C8 amended: only the empty raw flag list triggers the convenience
default, which resolves to exactly one command (integration) and exactly
one adapter type (postgres). -/
theorem empty_argv_default :
    (parse_args []).map (fun p => (p.commands, p.types))
      = .ok (some [CommandKind.integration], ["postgres"]) := rfl

/-- C2 counterexample: repeating a command-selection flag is not
deduplicated — requesting integration, unit, integration yields a command
list in which the integration kind appears twice. -/
theorem commands_duplicate_not_collapsed :
    (parse_args [CliFlag.integration, CliFlag.unit, CliFlag.integration]).map
        Parsed.commands
      = .ok (some [CommandKind.integration, CommandKind.unit,
                   CommandKind.integration])
    ∧ [CommandKind.integration, CommandKind.unit,
       CommandKind.integration].count CommandKind.integration = 2 :=
  ⟨rfl, rfl⟩

/-- C5 counterexample: the integration builder's output is a function of
the iteration order of the resolved adapter-type set, not of the set
itself — two orderings of the same two-element set {postgres, bigquery}
(both reachable across interpreter runs, since CPython string-set
iteration order is hash-seed dependent) produce different built vectors,
so the disjunct order is not determined by the input. -/
theorem marker_order_depends_on_iteration :
    ({ egBase with types := ["postgres", "bigquery"] } : Parsed).types.toFinset
        = ({ egBase with types := ["bigquery", "postgres"] } : Parsed).types.toFinset
    ∧ (integration_build { egBase with types := ["postgres", "bigquery"] }).1
        ≠ (integration_build { egBase with types := ["bigquery", "postgres"] }).1 := by
  exact ⟨by decide, by decide⟩

/-- Which command kind, if any, a flag occurrence appends (the three
append_const actions of dt.py lines 41-58). -/
def flagCommand : CliFlag → Option CommandKind
  | .flake8 => some .flake8
  | .unit => some .unit
  | .integration => some .integration
  | _ => none

/-- argparse append_const accumulation: appending a batch of constants to
an optional list that starts as None. -/
def appendCmds : Option (List CommandKind) → List CommandKind → Option (List CommandKind)
  | none, [] => none
  | c, l => some (c.getD [] ++ l)

theorem appendCmds_nil (c : Option (List CommandKind)) : appendCmds c [] = c := by
  rcases c with _ | c0
  · rfl
  · show some (c0 ++ []) = some c0
    rw [List.append_nil]

theorem appendCmds_assoc (c : Option (List CommandKind)) (a : CommandKind)
    (l : List CommandKind) :
    appendCmds (appendCmds c [a]) l = appendCmds c (a :: l) := by
  rcases c with _ | c0
  · rfl
  · show some ((c0 ++ [a]) ++ l) = some (c0 ++ (a :: l))
    rw [List.append_assoc]
    rfl

theorem appendCmds_none (l : List CommandKind) :
    appendCmds none l = if l = [] then none else some l := by
  rcases l with _ | ⟨a, l⟩
  · rfl
  · rfl

theorem foldl_commands (argv : List CliFlag) (r : RawParsed) :
    (argv.foldl applyFlag r).commands
      = appendCmds r.commands (argv.filterMap flagCommand) := by
  induction argv generalizing r with
  | nil => rw [List.foldl_nil, List.filterMap_nil, appendCmds_nil]
  | cons f argv ih =>
    rw [List.foldl_cons, ih]
    cases f <;>
      simp only [applyFlag, flagCommand, List.filterMap_cons] <;>
      first
        | rfl
        | (show appendCmds (some (r.commands.getD [] ++ [_])) _ = _
           rw [show ∀ a, some (r.commands.getD [] ++ [a])
                 = appendCmds r.commands [a] from fun a => by rcases r.commands with _ | c0 <;> rfl,
               appendCmds_assoc])

/-- The raw value argparse stores for the repeatable -t flag: the last
occurrence wins (store action). -/
def lastTypes : List CliFlag → Option String
  | [] => none
  | f :: rest =>
    match lastTypes rest with
    | some s => some s
    | none =>
      match f with
      | .types s => some s
      | _ => none

theorem foldl_types (argv : List CliFlag) (r : RawParsed) :
    (argv.foldl applyFlag r).types
      = match lastTypes argv with
        | some s => some s
        | none => r.types := by
  induction argv generalizing r with
  | nil => rfl
  | cons f argv ih =>
    rw [List.foldl_cons, ih]
    rcases hlt : lastTypes argv with _ | s <;>
      cases f <;> simp [lastTypes, applyFlag, hlt]

theorem rawParse_types (argv : List CliFlag) :
    (rawParse argv).types = lastTypes argv := by
  rw [rawParse, foldl_types]
  rcases lastTypes argv with _ | s
  · rfl
  · rfl

theorem foldl_pdb (argv : List CliFlag) (r : RawParsed) :
    (argv.foldl applyFlag r).pdb = true ↔ r.pdb = true ∨ CliFlag.pdb ∈ argv := by
  induction argv generalizing r with
  | nil => simp
  | cons f argv ih =>
    rw [List.foldl_cons, ih]
    cases f <;> simp [applyFlag, List.mem_cons]

/-- The argv actually parsed: an empty command line is rewritten to
['-it', 'pg'] before parsing (dt.py lines 38-39). -/
def effArgv (argv : List CliFlag) : List CliFlag :=
  if argv.isEmpty then [CliFlag.integration, CliFlag.types "pg"] else argv

/-- Case analysis of a successful parse: either a truthy raw types string
was normalized into p.types, or the raw value was absent or empty and
p.types is the four-type default; in both cases p is the raw namespace
with only the types field overwritten. -/
theorem parse_args_ok {argv : List CliFlag} {p : Parsed}
    (h : parse_args argv = .ok p) :
    (∃ s, (rawParse (effArgv argv)).types = some s ∧ s ≠ ""
        ∧ type_convert s = .ok p.types
        ∧ p = (rawParse (effArgv argv)).resolve p.types)
    ∨ (((rawParse (effArgv argv)).types = none
          ∨ (rawParse (effArgv argv)).types = some "")
        ∧ p = (rawParse (effArgv argv)).resolve DEFAULT_TYPES) := by
  have h' : (match (rawParse (effArgv argv)).types with
      | some s =>
        if s = "" then Except.ok ((rawParse (effArgv argv)).resolve DEFAULT_TYPES)
        else (type_convert s).map (rawParse (effArgv argv)).resolve
      | none => Except.ok ((rawParse (effArgv argv)).resolve DEFAULT_TYPES))
        = .ok p := h
  rcases hr : (rawParse (effArgv argv)).types with _ | s
  · rw [hr] at h'
    have h2i : Except.ok ((rawParse (effArgv argv)).resolve DEFAULT_TYPES)
        = Except.ok p := h'
    injection h2i with h2
    exact Or.inr ⟨Or.inl rfl, h2.symm⟩
  · rw [hr] at h'
    have h2i : (if s = ""
          then Except.ok ((rawParse (effArgv argv)).resolve DEFAULT_TYPES)
          else (type_convert s).map (rawParse (effArgv argv)).resolve)
        = Except.ok p := h'
    by_cases hs : s = ""
    · subst hs
      rw [if_pos rfl] at h2i
      injection h2i with h2
      exact Or.inr ⟨Or.inr rfl, h2.symm⟩
    · rw [if_neg hs] at h2i
      rcases htc : type_convert s with e | l
      · rw [htc] at h2i
        exact absurd h2i (by simp [Except.map])
      · rw [htc] at h2i
        simp only [Except.map] at h2i
        injection h2i with h2
        have hpt : p.types = l := by
          rw [← h2]
          rfl
        refine Or.inl ⟨s, rfl, hs, ?_, ?_⟩
        · rw [hpt]
          exact htc
        · rw [hpt]
          exact h2.symm

/-- On every successful parse, the resolved adapter-type set is non-empty
and duplicate-free. -/
theorem parse_types_sound {argv : List CliFlag} {p : Parsed}
    (h : parse_args argv = .ok p) : p.types ≠ [] ∧ p.types.Nodup := by
  rcases parse_args_ok h with ⟨s, _, _, htc, _⟩ | ⟨_, hp⟩
  · exact ⟨type_convert_ne_nil htc, type_convert_nodup htc⟩
  · rw [hp]
    show DEFAULT_TYPES ≠ [] ∧ DEFAULT_TYPES.Nodup
    exact ⟨by decide, by decide⟩

theorem effArgv_of_ne_nil {argv : List CliFlag} (hne : argv ≠ []) :
    effArgv argv = argv := by
  rcases argv with _ | ⟨f, argv⟩
  · exact absurd rfl hne
  · rfl

/-- A pdb flag anywhere on a command line that parses successfully yields
a parsed record with the pdb toggle set. -/
theorem parse_field_pdb {argv : List CliFlag} {p : Parsed}
    (h : parse_args argv = .ok p) (hm : CliFlag.pdb ∈ argv) : p.pdb = true := by
  have heff : effArgv argv = argv := effArgv_of_ne_nil (List.ne_nil_of_mem hm)
  have hpdb : (rawParse argv).pdb = true :=
    (foldl_pdb argv initRaw).mpr (Or.inr hm)
  rcases parse_args_ok h with ⟨s, _, _, _, hp⟩ | ⟨_, hp⟩ <;>
    rw [hp, heff] <;> exact hpdb

/-- On a successful parse of a non-empty command line, the command list is
the append_const accumulation of the command flags in input order. -/
theorem parse_commands_eq {argv : List CliFlag} {p : Parsed}
    (h : parse_args argv = .ok p) (hne : argv ≠ []) :
    p.commands = appendCmds none (argv.filterMap flagCommand) := by
  have heff : effArgv argv = argv := effArgv_of_ne_nil hne
  have hc : (rawParse argv).commands = appendCmds none (argv.filterMap flagCommand) := by
    rw [rawParse, foldl_commands]
    rfl
  rcases parse_args_ok h with ⟨s, _, _, _, hp⟩ | ⟨_, hp⟩ <;>
    rw [hp, heff] <;> exact hc

/-- C2 amended: for every non-empty raw flag list that parses, the
resolved command list contains one entry per occurrence of each
command-selection flag, in input order: repeated flags yield repeated
entries (argparse append_const does not deduplicate), and the list is None
exactly when no command flag occurred. -/
theorem commands_order_of_occurrences (argv : List CliFlag) (p : Parsed)
    (hne : argv ≠ []) (h : parse_args argv = .ok p) :
    p.commands = if argv.filterMap flagCommand = [] then none
                 else some (argv.filterMap flagCommand) := by
  rw [parse_commands_eq h hne, appendCmds_none]

/-- Witness for commands_order_of_occurrences: unit then style-check on
the command line gives the command list [unit, flake8]. -/
theorem commands_order_of_occurrences_inst :
    ({ egBase with commands := some [CommandKind.unit, CommandKind.flake8] }
        : Parsed).commands
      = if ([CliFlag.unit, CliFlag.flake8].filterMap flagCommand) = [] then none
        else some ([CliFlag.unit, CliFlag.flake8].filterMap flagCommand) :=
  commands_order_of_occurrences [CliFlag.unit, CliFlag.flake8]
    { egBase with commands := some [CommandKind.unit, CommandKind.flake8] }
    (by simp) rfl

/-- C4: on every successful parse of a non-empty flag list, if the
effective (last-stored) types value is a non-empty string it is normalized
into the resolved set; otherwise — there being no per-type boolean flags
in the parser, so that branch of the claim is vacuous — the resolved set
is exactly the four primary adapter types, with presto never among them. -/
theorem types_resolution (argv : List CliFlag) (p : Parsed) (hne : argv ≠ [])
    (h : parse_args argv = .ok p) :
    (∀ s, lastTypes argv = some s → s ≠ "" → type_convert s = .ok p.types)
    ∧ ((lastTypes argv = none ∨ lastTypes argv = some "") →
        p.types = DEFAULT_TYPES ∧ "presto" ∉ p.types) := by
  have heff : effArgv argv = argv := effArgv_of_ne_nil hne
  have hrt : (rawParse (effArgv argv)).types = lastTypes argv := by
    rw [heff, rawParse_types]
  rcases parse_args_ok h with ⟨s, hs, hsne, htc, _⟩ | ⟨hd, hp⟩
  · constructor
    · intro s2 hs2 _
      have he2 : s2 = s := by
        have h3 := hrt.symm.trans hs
        rw [hs2] at h3
        injection h3
      rw [he2]
      exact htc
    · rintro (hnone | hemp)
      · rw [hrt, hnone] at hs
        cases hs
      · rw [hrt, hemp] at hs
        injection hs with he3
        exact absurd he3.symm hsne
  · constructor
    · intro s2 hs2 hsne2
      rcases hd with hnone | hemp
      · rw [hrt, hs2] at hnone
        cases hnone
      · rw [hrt, hs2] at hemp
        injection hemp with he3
        exact absurd he3 hsne2
    · intro _
      constructor
      · rw [hp]
        rfl
      · rw [hp]
        show "presto" ∉ DEFAULT_TYPES
        decide

/-- Witness for types_resolution: a flag list with a command flag and no
types value resolves to the four-type default without presto. -/
theorem types_resolution_inst :
    ({ egBase with commands := some [CommandKind.flake8] } : Parsed).types
        = DEFAULT_TYPES
    ∧ "presto" ∉ ({ egBase with commands := some [CommandKind.flake8] }
        : Parsed).types :=
  (types_resolution [CliFlag.flake8]
      { egBase with commands := some [CommandKind.flake8] }
      (by simp) rfl).2 (Or.inl rfl)

theorem data_append (s t : String) : (s ++ t).data = s.data ++ t.data := by
  rcases s with ⟨d1⟩
  rcases t with ⟨d2⟩
  rfl

theorem data_head_of_append (s t : String) (c : Char) (r : List Char)
    (h : s.data = c :: r) : ∃ q, (s ++ t).data = c :: q :=
  ⟨r ++ t.data, by rw [data_append, h]; rfl⟩

theorem profile_marker_head (a : String) (l : List String) :
    ∃ q, (profile_marker (a :: l)).data = 'p' :: q := by
  rcases l with _ | ⟨b, l⟩
  · exact data_head_of_append "profile_" a 'p' "rofile_".data rfl
  · obtain ⟨q1, h1⟩ := data_head_of_append "profile_" a 'p' "rofile_".data rfl
    obtain ⟨q2, h2⟩ := data_head_of_append ("profile_" ++ a) " or " 'p' q1 h1
    exact data_head_of_append (("profile_" ++ a) ++ " or ")
      (pyJoin " or " (("profile_" ++ b) :: l.map fun t => "profile_" ++ t)) 'p' q2 h2

/-- The marker-selection value always starts with the letter p of
profile_, so it can never collide with a flag token or a test path that
starts differently. -/
theorem profile_marker_ne (l : List String) (hl : l ≠ []) (t : String)
    (ht : t.data.head? ≠ some 'p') : profile_marker l ≠ t := by
  rcases l with _ | ⟨a, l⟩
  · exact absurd rfl hl
  · obtain ⟨q, hq⟩ := profile_marker_head a l
    intro he
    apply ht
    rw [← he, hq]
    rfl

/-- The tox environment selector always starts with the letter e of
explicit-py, whatever the interpreter version string is. -/
theorem tox_env_ne (p : Parsed) (t : String) (ht : t.data.head? ≠ some 'e') :
    tox_env p ≠ t := by
  obtain ⟨q, hq⟩ :=
    data_head_of_append "explicit-py" p.python_version 'e' "xplicit-py".data rfl
  intro he
  apply ht
  rw [← he]
  show ("explicit-py" ++ p.python_version).data.head? = some 'e'
  rw [hq]
  rfl

theorem count_kpairs (x : String) (ks : List String) (hx : x ≠ "-k")
    (hm : x ∉ ks) : ((ks.flatMap fun arg => ["-k", arg]).count x) = 0 := by
  rw [List.count_eq_zero]
  intro hmem
  rw [List.mem_flatMap] at hmem
  obtain ⟨a, ha, hx2⟩ := hmem
  rcases List.mem_cons.mp hx2 with rfl | hx3
  · exact hx rfl
  · rcases List.mem_cons.mp hx3 with rfl | hx4
    · exact hm ha
    · cases hx4

theorem count_add_docker (x : String) (p : Parsed) (hd : x ∉ p.docker_args)
    (hf : x ∉ (["docker-compose", "run", "--rm", "-e",
        "DBT_TEST_SINGLE_THREADED=y"] : List String)) :
    (add_docker_args p).count x = 0 := by
  rw [List.count_eq_zero]
  intro hmem
  unfold add_docker_args at hmem
  rcases List.mem_append.mp hmem with hm12 | h3
  rcases List.mem_append.mp hm12 with h1 | h2
  · exact hf ((by decide :
      (["docker-compose", "run", "--rm"] : List String)
        ⊆ ["docker-compose", "run", "--rm", "-e", "DBT_TEST_SINGLE_THREADED=y"]) h1)
  · split at h2
    · exact hf ((by decide :
        (["-e", "DBT_TEST_SINGLE_THREADED=y"] : List String)
          ⊆ ["docker-compose", "run", "--rm", "-e", "DBT_TEST_SINGLE_THREADED=y"]) h2)
    · cases h2
  · split at h3
    · exact hd h3
    · cases h3

theorem count_add_tox (x : String) (p : Parsed) (ht : x ∉ p.tox_args)
    (he : x ≠ tox_env p)
    (hf : x ∉ (["test", "tox", "-e", "--"] : List String)) :
    (add_tox_args p).count x = 0 := by
  rw [List.count_eq_zero]
  intro hmem
  unfold add_tox_args at hmem
  rcases List.mem_append.mp hmem with hm12 | h3
  rcases List.mem_append.mp hm12 with h1 | h2
  · rcases List.mem_cons.mp h1 with rfl | h1
    · exact hf (by decide)
    rcases List.mem_cons.mp h1 with rfl | h1
    · exact hf (by decide)
    rcases List.mem_cons.mp h1 with rfl | h1
    · exact hf (by decide)
    rcases List.mem_cons.mp h1 with h1e | h1
    · exact he h1e
    · cases h1
  · split at h2
    · exact ht h2
    · cases h2
  · rcases List.mem_cons.mp h3 with rfl | h3
    · exact hf (by decide)
    · cases h3

theorem count_pytest_flags (x : String) (p : Parsed) (hk : x ∉ p.k)
    (hkf : x ≠ "-k")
    (hf : x ∉ (["-s", "--pdb", "--pdbcls=IPython.terminal.debugger:Pdb",
        "-x", "--cov", "dbt", "--cov-branch", "--cov-report", "term",
        "-n", "auto"] : List String)) :
    (pytest_flags p).count x = 0 := by
  rw [List.count_eq_zero]
  intro hmem
  unfold pytest_flags at hmem
  rcases List.mem_append.mp hmem with hm5 | h6
  rcases List.mem_append.mp hm5 with hm4 | h5
  rcases List.mem_append.mp hm4 with hm3 | h4
  rcases List.mem_append.mp hm3 with hm2 | h3
  rcases List.mem_append.mp hm2 with h1 | h2
  · rcases List.mem_cons.mp h1 with rfl | h1
    · exact hf (by decide)
    · cases h1
  · split at h2
    · exact hf ((by decide :
        (["--pdb", "--pdbcls=IPython.terminal.debugger:Pdb"] : List String)
          ⊆ ["-s", "--pdb", "--pdbcls=IPython.terminal.debugger:Pdb", "-x",
             "--cov", "dbt", "--cov-branch", "--cov-report", "term",
             "-n", "auto"]) h2)
    · cases h2
  · split at h3
    · rcases List.mem_cons.mp h3 with rfl | h3
      · exact hf (by decide)
      · cases h3
    · cases h3
  · split at h4
    · exact hf ((by decide :
        (["--cov", "dbt", "--cov-branch", "--cov-report", "term"] : List String)
          ⊆ ["-s", "--pdb", "--pdbcls=IPython.terminal.debugger:Pdb", "-x",
             "--cov", "dbt", "--cov-branch", "--cov-report", "term",
             "-n", "auto"]) h4)
    · cases h4
  · have h5c : (p.k.flatMap fun arg => ["-k", arg]).count x = 0 :=
      count_kpairs x p.k hkf hk
    exact absurd h5 (List.count_eq_zero.mp h5c)
  · split at h6
    · exact hf ((by decide : (["-n", "auto"] : List String)
          ⊆ ["-s", "--pdb", "--pdbcls=IPython.terminal.debugger:Pdb", "-x",
             "--cov", "dbt", "--cov-branch", "--cov-report", "term",
             "-n", "auto"]) h6)
    · cases h6

/-- With the debugger toggle set, the framework layer never emits the
auto-parallelism pair, because parsed.multi is forced off first. -/
theorem count_pytest_flags_pdb (x : String) (p : Parsed) (hpdb : p.pdb = true)
    (hk : x ∉ p.k) (hkf : x ≠ "-k")
    (hf : x ∉ (["-s", "--pdb", "--pdbcls=IPython.terminal.debugger:Pdb",
        "-x", "--cov", "dbt", "--cov-branch", "--cov-report", "term"]
        : List String)) :
    (pytest_flags p).count x = 0 := by
  rw [List.count_eq_zero]
  intro hmem
  unfold pytest_flags at hmem
  have hmulti : (pytest_resolve p).multi = false := by
    unfold pytest_resolve
    rw [if_pos hpdb]
  rw [hmulti] at hmem
  simp only [Bool.false_eq_true, if_false, List.append_nil] at hmem
  rcases List.mem_append.mp hmem with hm4 | h5
  rcases List.mem_append.mp hm4 with hm3 | h4
  rcases List.mem_append.mp hm3 with hm2 | h3
  rcases List.mem_append.mp hm2 with h1 | h2
  · rcases List.mem_cons.mp h1 with rfl | h1
    · exact hf (by decide)
    · cases h1
  · rw [if_pos hpdb] at h2
    exact hf ((by decide :
        (["--pdb", "--pdbcls=IPython.terminal.debugger:Pdb"] : List String)
          ⊆ ["-s", "--pdb", "--pdbcls=IPython.terminal.debugger:Pdb", "-x",
             "--cov", "dbt", "--cov-branch", "--cov-report", "term"]) h2)
  · split at h3
    · rcases List.mem_cons.mp h3 with rfl | h3
      · exact hf (by decide)
      · cases h3
    · cases h3
  · split at h4
    · exact hf ((by decide :
        (["--cov", "dbt", "--cov-branch", "--cov-report", "term"] : List String)
          ⊆ ["-s", "--pdb", "--pdbcls=IPython.terminal.debugger:Pdb", "-x",
             "--cov", "dbt", "--cov-branch", "--cov-report", "term"]) h4)
    · cases h4
  · have h5c : (p.k.flatMap fun arg => ["-k", arg]).count x = 0 :=
      count_kpairs x p.k hkf hk
    exact absurd h5 (List.count_eq_zero.mp h5c)

theorem count_integration_extra (x : String) (p : Parsed) (ht : x ∉ p.test_args)
    (he : x ∉ p.extra) (hm : x ≠ "-m") (hph : x.data.head? ≠ some 'p') :
    (integration_extra_args p).count x = 0 := by
  rw [List.count_eq_zero]
  intro hmem
  unfold integration_extra_args at hmem
  rcases List.mem_append.mp hmem with hm12 | h3
  rcases List.mem_append.mp hm12 with h1 | h2
  · split at h1
    · rename_i hne
      rcases List.mem_cons.mp h1 with rfl | h1
      · exact hm rfl
      rcases List.mem_cons.mp h1 with h1e | h1
      · exact profile_marker_ne p.types hne x hph h1e.symm
      · cases h1
    · cases h1
  · exact ht h2
  · exact he h3

theorem count_integration_extra_m (p : Parsed) (hne : p.types ≠ [])
    (ht : "-m" ∉ p.test_args) (he : "-m" ∉ p.extra) :
    (integration_extra_args p).count "-m" = 1 := by
  unfold integration_extra_args
  rw [if_pos hne, List.count_append, List.count_append,
    List.count_eq_zero.mpr ht, List.count_eq_zero.mpr he]
  have hmark : profile_marker p.types ≠ "-m" :=
    profile_marker_ne p.types hne "-m" (by decide)
  simp [List.count_cons, hmark]

theorem count_unit_extra (x : String) (p : Parsed) (hu : x ∉ p.unit_args)
    (he : x ∉ p.extra) : (unit_extra_args p).count x = 0 := by
  rw [List.count_eq_zero]
  intro hmem
  unfold unit_extra_args at hmem
  rcases List.mem_append.mp hmem with h1 | h2
  · exact hu h1
  · exact he h2

/-- C10: every successful resolution yields a non-empty adapter-type set
(normalization of a truthy string never returns an empty set, and the
default set has four members), and consequently the integration builder's
vector carries the marker-selection flag exactly once — the hypotheses
only rule out the user smuggling the literal flag token in through a
pass-through list. -/
theorem integration_marker_exactly_once (argv : List CliFlag) (p : Parsed)
    (h : parse_args argv = .ok p)
    (h1 : "-m" ∉ p.docker_args) (h2 : "-m" ∉ p.tox_args) (h3 : "-m" ∉ p.k)
    (h4 : "-m" ∉ p.test_args) (h5 : "-m" ∉ p.extra) :
    p.types ≠ [] ∧ (integration_build p).1.count "-m" = 1 := by
  obtain ⟨hne, _⟩ := parse_types_sound h
  refine ⟨hne, ?_⟩
  show (add_docker_args p ++ add_tox_args p ++ pytest_flags p
      ++ integration_extra_args p
      ++ (if integration_contributed p then [] else ["test/integration"])).count "-m" = 1
  rw [List.count_append, List.count_append, List.count_append, List.count_append]
  rw [count_add_docker "-m" p h1 (by decide),
    count_add_tox "-m" p h2 (Ne.symm (tox_env_ne p "-m" (by decide))) (by decide),
    count_pytest_flags "-m" p h3 (by decide) (by decide),
    count_integration_extra_m p hne h4 h5]
  have hd : (if integration_contributed p then ([] : List String)
      else ["test/integration"]).count "-m" = 0 := by
    split <;> rfl
  rw [hd]

/-- Witness for integration_marker_exactly_once on the flag list that only
selects the integration command. -/
theorem integration_marker_exactly_once_inst :
    ({ egBase with commands := some [CommandKind.integration] } : Parsed).types ≠ []
    ∧ (integration_build
        { egBase with commands := some [CommandKind.integration] }).1.count "-m" = 1 :=
  integration_marker_exactly_once [CliFlag.integration]
    { egBase with commands := some [CommandKind.integration] } rfl
    (by decide) (by decide) (by decide) (by decide) (by decide)

/-- C3: on every raw flag list carrying the debugger toggle, the option
record resolved by the framework layer has the parallel-worker toggle off
regardless of its requested value (the builders themselves perform the
override, mutating parsed.multi), and no vector built by a pytest-based
builder contains the auto-parallelism flag — the hypotheses only rule out
the user smuggling the literal token in through a pass-through list. -/
theorem pdb_disables_multi (argv : List CliFlag) (p : Parsed)
    (hpdb : CliFlag.pdb ∈ argv) (h : parse_args argv = .ok p)
    (h1 : "-n" ∉ p.docker_args) (h2 : "-n" ∉ p.tox_args) (h3 : "-n" ∉ p.k)
    (h4 : "-n" ∉ p.test_args) (h5 : "-n" ∉ p.unit_args) (h6 : "-n" ∉ p.extra) :
    (pytest_resolve p).multi = false
    ∧ (integration_build p).2.multi = false
    ∧ (unit_build p).2.multi = false
    ∧ "-n" ∉ (integration_build p).1
    ∧ "-n" ∉ (unit_build p).1 := by
  have hp := parse_field_pdb h hpdb
  have hres : (pytest_resolve p).multi = false := by
    unfold pytest_resolve
    rw [if_pos hp]
  refine ⟨hres, hres, hres, ?_, ?_⟩
  · apply List.count_eq_zero.mp
    show (add_docker_args p ++ add_tox_args p ++ pytest_flags p
        ++ integration_extra_args p
        ++ (if integration_contributed p then [] else ["test/integration"])).count "-n" = 0
    rw [List.count_append, List.count_append, List.count_append, List.count_append]
    rw [count_add_docker "-n" p h1 (by decide),
      count_add_tox "-n" p h2 (Ne.symm (tox_env_ne p "-n" (by decide))) (by decide),
      count_pytest_flags_pdb "-n" p hp h3 (by decide) (by decide),
      count_integration_extra "-n" p h4 h6 (by decide) (by decide)]
    have hd : (if integration_contributed p then ([] : List String)
        else ["test/integration"]).count "-n" = 0 := by
      split <;> rfl
    rw [hd]
  · apply List.count_eq_zero.mp
    show (add_docker_args p ++ add_tox_args p ++ pytest_flags p
        ++ unit_extra_args p
        ++ (if unit_contributed p then [] else ["test/unit"])).count "-n" = 0
    rw [List.count_append, List.count_append, List.count_append, List.count_append]
    rw [count_add_docker "-n" p h1 (by decide),
      count_add_tox "-n" p h2 (Ne.symm (tox_env_ne p "-n" (by decide))) (by decide),
      count_pytest_flags_pdb "-n" p hp h3 (by decide) (by decide),
      count_unit_extra "-n" p h5 h6]
    have hd : (if unit_contributed p then ([] : List String)
        else ["test/unit"]).count "-n" = 0 := by
      split <;> rfl
    rw [hd]

/-- Witness for pdb_disables_multi on the flag list [--pdb] with the
parallel toggle left at its default (on). -/
theorem pdb_disables_multi_inst :
    (pytest_resolve { egBase with pdb := true }).multi = false
    ∧ (integration_build { egBase with pdb := true }).2.multi = false
    ∧ (unit_build { egBase with pdb := true }).2.multi = false
    ∧ "-n" ∉ (integration_build { egBase with pdb := true }).1
    ∧ "-n" ∉ (unit_build { egBase with pdb := true }).1 :=
  pdb_disables_multi [CliFlag.pdb] { egBase with pdb := true }
    (List.mem_singleton.mpr rfl) rfl
    (by decide) (by decide) (by decide) (by decide) (by decide) (by decide)

/-- C6: for both pytest-based builders, the default target path appears in
the built vector exactly once when the leaf contributed no explicit
pass-through/extra target, and not at all when it contributed at least
one — the hypotheses only rule out the user passing the literal default
path through an unrelated pass-through list. -/
theorem default_target_iff_no_explicit (p : Parsed)
    (hi1 : "test/integration" ∉ p.docker_args)
    (hi2 : "test/integration" ∉ p.tox_args)
    (hi3 : "test/integration" ∉ p.k)
    (hi4 : "test/integration" ∉ p.test_args)
    (hi5 : "test/integration" ∉ p.extra)
    (hu1 : "test/unit" ∉ p.docker_args) (hu2 : "test/unit" ∉ p.tox_args)
    (hu3 : "test/unit" ∉ p.k) (hu4 : "test/unit" ∉ p.unit_args)
    (hu5 : "test/unit" ∉ p.extra) :
    ((integration_build p).1.count "test/integration"
        = if p.test_args ++ p.extra = [] then 1 else 0)
    ∧ ((unit_build p).1.count "test/unit"
        = if p.unit_args ++ p.extra = [] then 1 else 0) := by
  constructor
  · show (add_docker_args p ++ add_tox_args p ++ pytest_flags p
        ++ integration_extra_args p
        ++ (if integration_contributed p then []
            else ["test/integration"])).count "test/integration" = _
    rw [List.count_append, List.count_append, List.count_append, List.count_append]
    rw [count_add_docker "test/integration" p hi1 (by decide),
      count_add_tox "test/integration" p hi2
        (Ne.symm (tox_env_ne p "test/integration" (by decide))) (by decide),
      count_pytest_flags "test/integration" p hi3 (by decide) (by decide),
      count_integration_extra "test/integration" p hi4 hi5 (by decide) (by decide)]
    unfold integration_contributed
    by_cases hc : p.test_args ++ p.extra = []
    · simp [hc]
    · simp [hc]
  · show (add_docker_args p ++ add_tox_args p ++ pytest_flags p
        ++ unit_extra_args p
        ++ (if unit_contributed p then [] else ["test/unit"])).count "test/unit" = _
    rw [List.count_append, List.count_append, List.count_append, List.count_append]
    rw [count_add_docker "test/unit" p hu1 (by decide),
      count_add_tox "test/unit" p hu2
        (Ne.symm (tox_env_ne p "test/unit" (by decide))) (by decide),
      count_pytest_flags "test/unit" p hu3 (by decide) (by decide),
      count_unit_extra "test/unit" p hu4 hu5]
    unfold unit_contributed
    by_cases hc : p.unit_args ++ p.extra = []
    · simp [hc]
    · simp [hc]

/-- Witness for default_target_iff_no_explicit: with no explicit targets
anywhere, each default target path is appended exactly once. -/
theorem default_target_iff_no_explicit_inst :
    ((integration_build egBase).1.count "test/integration"
        = if egBase.test_args ++ egBase.extra = [] then 1 else 0)
    ∧ ((unit_build egBase).1.count "test/unit"
        = if egBase.unit_args ++ egBase.extra = [] then 1 else 0) :=
  default_target_iff_no_explicit egBase (by decide) (by decide) (by decide)
    (by decide) (by decide) (by decide) (by decide) (by decide) (by decide)
    (by decide)

/-- C5 amended: the integration builder places, ahead of any explicit
target, a single marker-selection pair whose value is the or-disjunction
of profile_<type> for exactly the resolved adapter types — the resolved
set being non-empty and duplicate-free, each type contributes exactly one
disjunct — in the iteration order of the resolved set, which the
interpreter fixes only within one run (it is not deterministic across
runs; see the counterexample). -/
theorem marker_per_selected_type (argv : List CliFlag) (p : Parsed)
    (h : parse_args argv = .ok p) :
    p.types ≠ [] ∧ p.types.Nodup
    ∧ (integration_build p).1
        = add_docker_args p ++ add_tox_args p ++ pytest_flags p
          ++ (["-m", profile_marker p.types] ++ p.test_args ++ p.extra)
          ++ (if p.test_args ++ p.extra = [] then ["test/integration"] else []) := by
  obtain ⟨hne, hnd⟩ := parse_types_sound h
  refine ⟨hne, hnd, ?_⟩
  show add_docker_args p ++ add_tox_args p ++ pytest_flags p
      ++ integration_extra_args p
      ++ (if integration_contributed p then [] else ["test/integration"]) = _
  unfold integration_extra_args integration_contributed
  rw [if_pos hne]
  by_cases hc : p.test_args ++ p.extra = []
  · simp [hc]
  · simp [hc]

/-- Witness for marker_per_selected_type on the flag list that only
selects the integration command. -/
theorem marker_per_selected_type_inst :
    ({ egBase with commands := some [CommandKind.integration] } : Parsed).types ≠ []
    ∧ ({ egBase with commands := some [CommandKind.integration] }
        : Parsed).types.Nodup
    ∧ (integration_build
          { egBase with commands := some [CommandKind.integration] }).1
        = add_docker_args { egBase with commands := some [CommandKind.integration] }
          ++ add_tox_args { egBase with commands := some [CommandKind.integration] }
          ++ pytest_flags { egBase with commands := some [CommandKind.integration] }
          ++ (["-m", profile_marker
                ({ egBase with commands := some [CommandKind.integration] }
                  : Parsed).types]
              ++ ({ egBase with commands := some [CommandKind.integration] }
                  : Parsed).test_args
              ++ ({ egBase with commands := some [CommandKind.integration] }
                  : Parsed).extra)
          ++ (if ({ egBase with commands := some [CommandKind.integration] }
                  : Parsed).test_args
                ++ ({ egBase with commands := some [CommandKind.integration] }
                  : Parsed).extra = []
              then ["test/integration"] else []) :=
  marker_per_selected_type [CliFlag.integration]
    { egBase with commands := some [CommandKind.integration] } rfl
